import Mathlib

/-!
Shallow embedding of the ProxyConverter batch process-supervision core.

The embedded code is:
* `proxy_converter/utils/config_manager.py` — `ConfigManager.validate_config_dir`,
  `ConfigManager.select_config_files` (the ConfigStore);
* `proxy_converter/utils/filesystem.py` — `list_config_files`;
* `proxy_converter/hysteria2/process_manager.py` — `ProcessManager.launch_process`,
  `ProcessManager.cleanup_processes`, `ProcessManager._cleanup_single_process`
  (the ProcessSupervisor);
* `proxy_converter/hysteria2/connection.py` — `ConnectionManager.connect_batch`,
  `ConnectionManager._prepare_resources`, `ConnectionManager._connect_one`
  (the BatchConnector).

Modelling conventions: the filesystem, the JSON loader, process spawning and the
post-grace-period exit poll are oracles (function parameters), so theorems
quantify over every possible environment behaviour.  Python exceptions are
values of `PyExn`; fallible steps return `Except PyExn α`.  The concurrent
`asyncio.gather` over the connection tasks is linearised: tasks are executed in
task order, which matches both the order of the result list that `gather`
returns and the atomicity of Supervision-Set mutations under single-threaded
cooperative scheduling.
-/

namespace ProxyConverter

/-- A raised Python exception, reduced to its message text (what `str(e)` yields). -/
structure PyExn where
  msg : String
deriving DecidableEq, Repr

/- ## Strings: splitting, basename, int parsing, lexicographic order

Python `str.split(sep)` with a one-character separator, `os.path.basename`,
`int(...)` and `list.sort()` on strings are re-implemented structurally so that
every definition reduces in the kernel. -/

/-- Helper for `splitOnChar`: accumulates the current field (reversed). -/
def splitOnCharAux (c : Char) : List Char → List Char → List (List Char)
  | [], acc => [acc.reverse]
  | x :: xs, acc =>
      if x = c then acc.reverse :: splitOnCharAux c xs []
      else splitOnCharAux c xs (x :: acc)

/-- Python `s.split(c)` for a single-character separator `c`.
Always returns a non-empty list; `"".split(c) == [""]`. -/
def splitOnChar (c : Char) (s : String) : List String :=
  (splitOnCharAux c s.data []).map (fun l => ⟨l⟩)

/-- Python `os.path.basename` on POSIX paths: the part after the last slash. -/
def basename (f : String) : String :=
  (splitOnChar '/' f).getLastD ""

/-- Accumulating decimal parser: fails on any non-digit character. -/
def natOfDigitsAux : List Char → Nat → Option Nat
  | [], acc => some acc
  | c :: cs, acc =>
      if c.isDigit then natOfDigitsAux cs (acc * 10 + (c.toNat - 48))
      else none

/-- Python `int(s)` restricted to an optional leading minus sign followed by
decimal digits; any other shape raises (here: `none`).  `int("")` raises. -/
def pyInt (s : String) : Option Int :=
  match s.data with
  | [] => none
  | '-' :: [] => none
  | '-' :: c :: cs => (natOfDigitsAux (c :: cs) 0).map (fun n => -(n : Int))
  | c :: cs => (natOfDigitsAux (c :: cs) 0).map (fun n => (n : Int))

/-- Lexicographic ≤ on character lists by Unicode code point: the order Python
uses to compare strings. -/
def lexLe : List Char → List Char → Bool
  | [], _ => true
  | _ :: _, [] => false
  | a :: as, b :: bs =>
      if a.toNat < b.toNat then true
      else if b.toNat < a.toNat then false
      else lexLe as bs

/-- Python string comparison `a <= b`. -/
def strLe (a b : String) : Bool := lexLe a.data b.data

/-- Insert into a (lexicographically) sorted list, keeping it sorted. -/
def insertSorted (a : String) : List String → List String
  | [] => [a]
  | b :: bs => if strLe a b then a :: b :: bs else b :: insertSorted a bs

/-- Python `list.sort()` on strings: produces the lexicographically sorted
permutation (insertion sort; the result is algorithm-independent because the
order is total and antisymmetric). -/
def pySort : List String → List String
  | [] => []
  | a :: as => insertSorted a (pySort as)

/-- Boolean test that `needle` is a prefix of `hay` (character lists). -/
def startsWithList : List Char → List Char → Bool
  | [], _ => true
  | _ :: _, [] => false
  | a :: as, b :: bs => a = b && startsWithList as bs

/-- Python `needle in hay` substring containment on character lists. -/
def containsSubList (needle : List Char) : List Char → Bool
  | [] => needle.isEmpty
  | b :: bs => startsWithList needle (b :: bs) || containsSubList needle bs

/-- Python `s.endswith(suffix)`. -/
def strEndsWith (s suffix : String) : Bool :=
  startsWithList suffix.data.reverse s.data.reverse

/-- Python `s.lower()` (per-character lowering). -/
def lowerStr (s : String) : String := ⟨s.data.map Char.toLower⟩

/- ## Filesystem and ConfigStore (`utils/filesystem.py`, `utils/config_manager.py`) -/

/-- Oracle for the OS filesystem calls the ConfigStore makes:
`os.path.exists`, `os.path.isdir`, `os.listdir`. -/
structure PyFS where
  pathExists : String → Bool
  isdir : String → Bool
  listdir : String → List String

/-- The `list_config_files(directory, extension='.json')` helper of
`utils/filesystem.py`: `[]` when the directory is not a directory, otherwise
every directory entry ending in `.json`, joined onto the directory path. -/
def list_config_files (fs : PyFS) (directory : String) : List String :=
  if fs.isdir directory = false then []
  else ((fs.listdir directory).filter (fun f => strEndsWith f ".json")).map
    (fun f => directory ++ "/" ++ f)

/-- The `ConfigManager.validate_config_dir` method: the config directory is a
non-empty path (Python truthiness of `self.config_dir`) that exists, is a
directory and holds at least one recognized config file. -/
def validate_config_dir (fs : PyFS) (config_dir : String) : Bool :=
  if config_dir = "" then false
  else if fs.pathExists config_dir = false then false
  else if fs.isdir config_dir = false then false
  else !(list_config_files fs config_dir).isEmpty

/-- The filtering step of `ConfigManager.select_config_files` (lines 70–95).
`regexOk pat` stands for "`re.compile(pat, re.IGNORECASE)` succeeds" and
`regexSearch pat name` for "that compiled pattern's `search(name)` finds a
match"; both are oracles since the model embeds no regex engine.  A `pat` of
`none` is Python `None`; `some ""` is falsy in Python, so neither filters. -/
def apply_filter (regexOk : String → Bool) (regexSearch : String → String → Bool)
    (pat : Option String) (files : List String) : List String :=
  match pat with
  | none => files
  | some p =>
      if p = "" then files
      else if p.data.contains '|' then
        let pats := splitOnChar '|' p
        files.filter (fun f => pats.contains (basename f))
      else if regexOk p then
        files.filter (fun f => regexSearch p (basename f))
      else
        files.filter (fun f =>
          containsSubList (lowerStr p).data (lowerStr (basename f)).data)

/-- The truncation step of `ConfigManager.select_config_files` (lines 97–99):
`if limit > 0 and len(all_files) > limit: all_files = all_files[:limit]`. -/
def truncate_to_limit (limit : Nat) (l : List String) : List String :=
  if 0 < limit ∧ limit < l.length then l.take limit else l

/-- The body of `ConfigManager.select_config_files` after the directory listing
(`all_files`) is obtained: empty-listing early return, then filter, then
truncate to `limit`, then `list.sort()`. -/
def select_from_files (regexOk : String → Bool) (regexSearch : String → String → Bool)
    (all_files : List String) (limit : Nat) (pat : Option String) : List String :=
  if all_files.isEmpty then []
  else pySort (truncate_to_limit limit (apply_filter regexOk regexSearch pat all_files))

/-- The full `ConfigManager.select_config_files`: an empty (falsy) or
non-directory `config_dir` yields `[]`; otherwise the directory listing is
filtered, truncated and sorted by `select_from_files`. -/
def select_config_files (fs : PyFS) (regexOk : String → Bool)
    (regexSearch : String → String → Bool) (config_dir : String)
    (limit : Nat) (pat : Option String) : List String :=
  if config_dir = "" then []
  else if fs.isdir config_dir = false then []
  else select_from_files regexOk regexSearch (list_config_files fs config_dir) limit pat

/- ## ProcessSupervisor (`hysteria2/process_manager.py`) -/

/-- One external client process as the supervisor observes it.
`returncode` is the exit code the OS reports at the point the handle is
examined (`None` while running).  `respondsToTerminate` and `termExitCode` are
the environment's behaviour under a graceful `terminate()`: whether the process
exits inside the 1-second `process.wait()` window, and with which code. -/
structure ProcessHandle where
  pid : Nat
  returncode : Option Int
  respondsToTerminate : Bool
  termExitCode : Int
deriving DecidableEq, Repr

/-- The `process_info` dict built by `ProcessManager.launch_process`:
`{"process": ..., "config_file": ..., "port": ...}`. -/
structure ProcessInfo where
  process : ProcessHandle
  config_file : String
  port : Int
deriving DecidableEq, Repr

/-- The mutable state of a `ProcessManager`: `self.processes`, the Supervision
Set of the spec. -/
structure PMState where
  processes : List ProcessInfo
deriving DecidableEq, Repr

/-- The `ProcessManager.launch_process` method.  `spawn` is the oracle for
`asyncio.create_subprocess_exec`: either a live handle or a raised exception.
On success the new `process_info` is appended to `self.processes` and returned;
on failure the exception is re-raised and the state is unchanged. -/
def launch_process (spawn : String → Except PyExn ProcessHandle)
    (st : PMState) (config_file : String) (port : Int) :
    Except PyExn (ProcessInfo × PMState) :=
  match spawn config_file with
  | .error e => .error e
  | .ok p =>
      let pi : ProcessInfo := ⟨p, config_file, port⟩
      .ok (pi, ⟨st.processes ++ [pi]⟩)

/-- Termination actions `_cleanup_single_process` can send to the OS. -/
inductive CleanupAction where
  | sigterm
  | sigkill
deriving DecidableEq, Repr

/-- The `ProcessManager._cleanup_single_process` method, as the pair
(resulting `process_info`, actions sent).  An already-exited process
(`returncode is not None`) is left untouched and no action is sent.  A live
process gets `terminate()`; if it does not exit within the 1-second wait it is
`kill()`ed (its exit remains unconfirmed at that point). -/
def cleanup_single_process (pi : ProcessInfo) : ProcessInfo × List CleanupAction :=
  match pi.process.returncode with
  | some _ => (pi, [])
  | none =>
      if pi.process.respondsToTerminate then
        ({ pi with process := { pi.process with returncode := some pi.process.termExitCode } },
         [CleanupAction.sigterm])
      else
        (pi, [CleanupAction.sigterm, CleanupAction.sigkill])

/-- The `ProcessManager.cleanup_processes` method.  `timedOut` is the oracle
for whether the overall 3-second `asyncio.wait_for` around the gathered
per-process cleanups elapsed first (in which case some terminations may not
have been carried out).  Either way `self.processes` is reassigned to `[]`
afterward; when the set was already empty the method returns immediately.
The second component records the actions sent per supervised process. -/
def cleanup_processes (st : PMState) (timedOut : Bool) :
    PMState × List (List CleanupAction) :=
  if st.processes.isEmpty then (st, [])
  else
    let actions := if timedOut then [] else st.processes.map (fun pi => (cleanup_single_process pi).2)
    (⟨[]⟩, actions)

/- ## BatchConnector (`hysteria2/connection.py`) -/

/-- The fields of a parsed JSON client config that the supervision core reads:
whether the `"http"` key is present and, inside it, whether the `"listen"` key
is present (and its string value). -/
structure HttpSection where
  listen : Option String
deriving DecidableEq, Repr

/-- A loaded config object (only the parts the BatchConnector inspects). -/
structure Config where
  http : Option HttpSection
deriving DecidableEq, Repr

/-- The expression `config.get("http", {}).get("listen", "")` of
`_connect_one`. -/
def httpListenOf (config : Config) : String :=
  match config.http with
  | none => ""
  | some h => h.listen.getD ""

/-- The check `"http" not in config or "listen" not in config["http"]` of
`_prepare_resources`. -/
def missingHttpListen (config : Config) : Bool :=
  match config.http with
  | none => true
  | some h => h.listen.isNone

/-- The resource dict `{"config_file": ..., "config": ...}` built by
`_prepare_resources`. -/
structure Resource where
  config_file : String
  config : Config
deriving DecidableEq, Repr

/-- The per-attempt result dict of `_connect_one`; keys that a given return
path omits are `none`. -/
structure AttemptResult where
  config_file : String
  success : Bool
  port : Option Int
  http_listen : Option String
  error : Option String
deriving DecidableEq, Repr

/-- The `prepare_one_resource` closure inside `_prepare_resources`: load the
config (`load` is the oracle for `ConfigManager.load_config`, which may raise),
drop it (`None`) when loading raises or the HTTP listen key is missing,
otherwise build the resource dict. -/
def prepare_one_resource (load : String → Except PyExn Config)
    (config_file : String) : Option Resource :=
  match load config_file with
  | .error _ => none
  | .ok config =>
      if missingHttpListen config then none
      else some ⟨config_file, config⟩

/-- The `_prepare_resources` method: ask `prepare_one_resource` for each
selected file and keep the non-`None` results (the `gather` returns them in
task order). -/
def prepare_resources (load : String → Except PyExn Config)
    (config_files : List String) : List Resource :=
  config_files.filterMap (prepare_one_resource load)

/-- The `_connect_one` method.  `spawn` is the spawning oracle passed on to
`launch_process`; `grace h` is the oracle for the grace-period block
`await asyncio.sleep(0.2)` followed by reading `process.returncode`: it yields
the observed exit code (`none` = still running) or the exception raised inside
that block.  Every return path of the Python method is reproduced, including
the final `except Exception` that converts a raised error into a failed result
dict. -/
def connect_one (spawn : String → Except PyExn ProcessHandle)
    (grace : ProcessHandle → Except PyExn (Option Int))
    (st : PMState) (resource : Resource) : AttemptResult × PMState :=
  if httpListenOf resource.config = "" then
    (⟨resource.config_file, false, none, none, some "配置中没有 HTTP 监听地址"⟩, st)
  else
    match pyInt ((splitOnChar ':' (httpListenOf resource.config)).getLastD "") with
    | none =>
        (⟨resource.config_file, false, none, none,
          some ("无法解析 HTTP 监听地址 " ++ httpListenOf resource.config)⟩, st)
    | some port =>
        match launch_process spawn st resource.config_file port with
        | .error e => (⟨resource.config_file, false, some port, none, some e.msg⟩, st)
        | .ok (pi, st₁) =>
            match grace pi.process with
            | .error e => (⟨resource.config_file, false, some port, none, some e.msg⟩, st₁)
            | .ok (some rc) =>
                (⟨resource.config_file, false, some port, none,
                  some ("进程立即退出，退出码: " ++ toString rc)⟩, st₁)
            | .ok none =>
                (⟨resource.config_file, true, some port,
                  some (httpListenOf resource.config), none⟩, st₁)

/-- The connection phase of `connect_batch`: one `_connect_one` task per
prepared resource.  The concurrent `asyncio.gather` is linearised in task
order, which is the order of the list it returns; Supervision-Set mutations
are threaded through. -/
def run_attempts (spawn : String → Except PyExn ProcessHandle)
    (grace : ProcessHandle → Except PyExn (Option Int)) :
    List Resource → PMState → List AttemptResult × PMState
  | [], st => ([], st)
  | r :: rs, st =>
      let p := connect_one spawn grace st r
      let q := run_attempts spawn grace rs p.2
      (p.1 :: q.1, q.2)

/-- The `connect_batch` method from the point where the selected
`config_files` list is in hand: empty selection returns `[]` immediately;
otherwise resources are prepared and the connection tasks run.  (In this model
`connect_one` is total, so the `gather` outcomes are exactly the attempt
results; `aggregate_results` below covers the general outcome-processing
loop.) -/
def connect_batch (load : String → Except PyExn Config)
    (spawn : String → Except PyExn ProcessHandle)
    (grace : ProcessHandle → Except PyExn (Option Int))
    (st : PMState) (config_files : List String) :
    List AttemptResult × PMState :=
  if config_files.isEmpty then ([], st)
  else run_attempts spawn grace (prepare_resources load config_files) st

/-- The semaphore construction of `connect_batch` (line 61):
`asyncio.Semaphore(max_parallel if max_parallel > 0 else len(config_files))`,
evaluated on the selected `config_files` before resource preparation. -/
def connect_batch_semaphore_size (config_files : List String) (max_parallel : Nat) : Nat :=
  if 0 < max_parallel then max_parallel else config_files.length

/-- The result-processing loop of `connect_batch` (lines 87–93) over the
outcomes of `asyncio.gather(..., return_exceptions=True)`: an outcome that is
an exception is printed and skipped (`continue`); every other outcome is
appended to `results`. -/
def aggregate_results (outcomes : List (Except PyExn AttemptResult)) :
    List AttemptResult :=
  outcomes.filterMap (fun o =>
    match o with
    | .error _ => none
    | .ok r => some r)

/- ## Helper lemmas on the lexicographic sort -/

theorem lexLe_total : ∀ as bs : List Char, lexLe as bs = true ∨ lexLe bs as = true
  | [], _ => Or.inl rfl
  | _ :: _, [] => Or.inr rfl
  | a :: as, b :: bs => by
      simp only [lexLe]
      rcases Nat.lt_trichotomy a.toNat b.toNat with h | h | h
      · have h2 : ¬ b.toNat < a.toNat := by omega
        simp [h, h2]
      · have h2 : ¬ a.toNat < b.toNat := by omega
        have h3 : ¬ b.toNat < a.toNat := by omega
        simpa [h2, h3] using lexLe_total as bs
      · have h2 : ¬ a.toNat < b.toNat := by omega
        simp [h, h2]

theorem lexLe_trans : ∀ as bs cs : List Char,
    lexLe as bs = true → lexLe bs cs = true → lexLe as cs = true
  | [], _, _, _, _ => rfl
  | _ :: _, [], _, h1, _ => by simp [lexLe] at h1
  | _ :: _, _ :: _, [], _, h2 => by simp [lexLe] at h2
  | a :: as, b :: bs, c :: cs, h1, h2 => by
      simp only [lexLe] at h1 h2 ⊢
      by_cases hab : a.toNat < b.toNat <;> by_cases hbc : b.toNat < c.toNat
      · have : a.toNat < c.toNat := by omega
        simp [this]
      · by_cases hcb : c.toNat < b.toNat
        · simp [hbc, hcb] at h2
        · have : a.toNat < c.toNat := by omega
          simp [this]
      · by_cases hba : b.toNat < a.toNat
        · simp [hab, hba] at h1
        · have : a.toNat < c.toNat := by omega
          simp [this]
      · by_cases hba : b.toNat < a.toNat
        · simp [hab, hba] at h1
        · by_cases hcb : c.toNat < b.toNat
          · simp [hbc, hcb] at h2
          · have hac : ¬ a.toNat < c.toNat := by omega
            have hca : ¬ c.toNat < a.toNat := by omega
            simp only [hab, hba, if_neg, ite_false] at h1
            simp only [hbc, hcb, if_neg, ite_false] at h2
            simp only [hac, hca, if_neg, ite_false]
            simpa using lexLe_trans as bs cs (by simpa [hab, hba] using h1)
              (by simpa [hbc, hcb] using h2)

theorem strLe_total (a b : String) : strLe a b = true ∨ strLe b a = true :=
  lexLe_total a.data b.data

theorem strLe_trans (a b c : String) (h1 : strLe a b = true) (h2 : strLe b c = true) :
    strLe a c = true :=
  lexLe_trans a.data b.data c.data h1 h2

theorem perm_insertSorted (a : String) :
    ∀ l : List String, (insertSorted a l).Perm (a :: l)
  | [] => List.Perm.refl _
  | b :: bs => by
      simp only [insertSorted]
      split
      · exact List.Perm.refl _
      · exact ((perm_insertSorted a bs).cons b).trans (List.Perm.swap a b bs)

theorem perm_pySort : ∀ l : List String, (pySort l).Perm l
  | [] => List.Perm.refl _
  | a :: as => (perm_insertSorted a (pySort as)).trans ((perm_pySort as).cons a)

theorem pairwise_insertSorted (a : String) :
    ∀ l : List String, List.Pairwise (fun x y => strLe x y = true) l →
      List.Pairwise (fun x y => strLe x y = true) (insertSorted a l)
  | [], _ => by simp [insertSorted]
  | b :: bs, h => by
      rw [List.pairwise_cons] at h
      obtain ⟨hb, hbs⟩ := h
      simp only [insertSorted]
      split
      case isTrue hab =>
        rw [List.pairwise_cons]
        refine ⟨?_, List.pairwise_cons.mpr ⟨hb, hbs⟩⟩
        intro x hx
        rcases List.mem_cons.mp hx with rfl | hx
        · exact hab
        · exact strLe_trans a b x hab (hb x hx)
      case isFalse hab =>
        rw [List.pairwise_cons]
        refine ⟨?_, pairwise_insertSorted a bs hbs⟩
        intro x hx
        rcases List.mem_cons.mp ((perm_insertSorted a bs).mem_iff.mp hx) with hxa | hx2
        · rw [hxa]
          rcases strLe_total a b with htot | htot
          · exact absurd htot hab
          · exact htot
        · exact hb x hx2

theorem pairwise_pySort : ∀ l : List String,
    List.Pairwise (fun x y => strLe x y = true) (pySort l)
  | [] => List.Pairwise.nil
  | a :: as => pairwise_insertSorted a (pySort as) (pairwise_pySort as)

theorem apply_filter_some (regexOk : String → Bool) (regexSearch : String → String → Bool)
    (p : String) (files : List String) :
    apply_filter regexOk regexSearch (some p) files =
      if p = "" then files
      else if p.data.contains '|' then
        files.filter (fun f => (splitOnChar '|' p).contains (basename f))
      else if regexOk p then
        files.filter (fun f => regexSearch p (basename f))
      else
        files.filter (fun f =>
          containsSubList (lowerStr p).data (lowerStr (basename f)).data) := rfl

theorem apply_filter_nil (regexOk : String → Bool) (regexSearch : String → String → Bool)
    (pat : Option String) : apply_filter regexOk regexSearch pat [] = [] := by
  cases pat with
  | none => rfl
  | some p =>
      simp only [apply_filter]
      split_ifs <;> simp

/- ## Claim C4: filter, then truncate, then sort -/

/-- Claim C4 (confirmed): `select_config_files` first filters, then truncates
the filtered list to `limit` (0 = unlimited), and only then sorts
lexicographically: the result is always the lexicographic sort of
`truncate_to_limit limit (apply_filter ...)`.  Concretely, with `limit = 2`
over 5 candidates the selected pair is the sort of the first two files of the
pre-truncation order (`["a.json", "e.json"]`), not the lexicographically-first
two overall (`["a.json", "b.json"]`). -/
theorem select_truncates_before_sorting :
    (∀ (regexOk : String → Bool) (regexSearch : String → String → Bool)
        (files : List String) (limit : Nat) (pat : Option String),
      (select_from_files regexOk regexSearch files limit pat).Perm
          (truncate_to_limit limit (apply_filter regexOk regexSearch pat files))
      ∧ List.Pairwise (fun x y => strLe x y = true)
          (select_from_files regexOk regexSearch files limit pat))
    ∧ select_from_files (fun _ => false) (fun _ _ => false)
        ["e.json", "a.json", "b.json", "c.json", "d.json"] 2 none
        = ["a.json", "e.json"] := by
  constructor
  · intro regexOk regexSearch files limit pat
    unfold select_from_files
    split
    case isTrue h =>
      rw [List.isEmpty_iff.mp h, apply_filter_nil]
      simp [truncate_to_limit]
    case isFalse h =>
      exact ⟨perm_pySort _, pairwise_pySort _⟩
  · decide

/- ## Claim C6: pipe-delimited patterns select by exact basename -/

/-- Claim C6 (confirmed): when the filter pattern contains `|`, selection (with
no limit) returns exactly the files whose basename equals one of the
`|`-delimited names — membership in the result is equivalent to exact basename
membership in the delimited name set, so no substring or regex fallback ever
applies. -/
theorem select_pipe_exact_basename (regexOk : String → Bool)
    (regexSearch : String → String → Bool) (files : List String) (p : String)
    (hp : p.data.contains '|' = true) (f : String) :
    f ∈ select_from_files regexOk regexSearch files 0 (some p) ↔
      f ∈ files ∧ basename f ∈ splitOnChar '|' p := by
  have hne : p ≠ "" := by
    intro h
    subst h
    simp at hp
  by_cases hemp : files.isEmpty
  · rw [List.isEmpty_iff.mp hemp]
    simp [select_from_files]
  · unfold select_from_files
    rw [if_neg hemp, (perm_pySort _).mem_iff]
    have ht : truncate_to_limit 0 (apply_filter regexOk regexSearch (some p) files)
        = apply_filter regexOk regexSearch (some p) files := by
      simp [truncate_to_limit]
    rw [ht, apply_filter_some, if_neg hne, if_pos hp]
    simp [List.mem_filter]

/-- Witness for C6 at a concrete input: with pattern `"a.json|b.json"`, the
file `dir/a.json` is selected (its basename matches exactly), derived by
applying `select_pipe_exact_basename`. -/
theorem select_pipe_exact_basename_witness :
    "dir/a.json" ∈ select_from_files (fun _ => false) (fun _ _ => false)
      ["dir/a.json", "dir/ab.json"] 0 (some "a.json|b.json") :=
  (select_pipe_exact_basename (fun _ => false) (fun _ _ => false)
    ["dir/a.json", "dir/ab.json"] "a.json|b.json" (by decide) "dir/a.json").mpr
    (by decide)

/- ## Claim C7: validate iff non-empty recognized config set -/

/-- Claim C7 (confirmed): `validate_config_dir` returns true iff the directory
exists, is a directory and holds at least one recognized config file (under
the real-filesystem fact that the empty/falsy path does not exist); and
whenever the directory has zero recognized config files, `validate_config_dir`
is false and `select_config_files` returns the empty list. -/
theorem validate_iff_and_empty_select (fs : PyFS) (d : String)
    (h0 : fs.pathExists "" = false) :
    (validate_config_dir fs d = true ↔
      (fs.pathExists d = true ∧ fs.isdir d = true ∧ list_config_files fs d ≠ []))
    ∧ (list_config_files fs d = [] →
        validate_config_dir fs d = false ∧
        ∀ (regexOk : String → Bool) (regexSearch : String → String → Bool)
          (limit : Nat) (pat : Option String),
          select_config_files fs regexOk regexSearch d limit pat = []) := by
  constructor
  · by_cases hd : d = ""
    · subst hd
      simp [validate_config_dir, h0]
    · unfold validate_config_dir
      rw [if_neg hd]
      cases he : fs.pathExists d with
      | false => simp
      | true =>
        cases hi : fs.isdir d with
        | false => simp
        | true => simp [List.isEmpty_iff]
  · intro hl
    constructor
    · unfold validate_config_dir
      split_ifs <;> simp [hl]
    · intro regexOk regexSearch limit pat
      unfold select_config_files
      split_ifs with h1 h2
      · rfl
      · rfl
      · rw [hl]
        rfl

/-- Witness for C7 at a concrete input: a filesystem where nothing exists and a
directory name `configs`, obtained by applying `validate_iff_and_empty_select`. -/
theorem validate_iff_and_empty_select_witness :
    (validate_config_dir ⟨fun _ => false, fun _ => false, fun _ => []⟩ "configs" = true ↔
      ((⟨fun _ => false, fun _ => false, fun _ => []⟩ : PyFS).pathExists "configs" = true ∧
       (⟨fun _ => false, fun _ => false, fun _ => []⟩ : PyFS).isdir "configs" = true ∧
       list_config_files ⟨fun _ => false, fun _ => false, fun _ => []⟩ "configs" ≠ []))
    ∧ (list_config_files ⟨fun _ => false, fun _ => false, fun _ => []⟩ "configs" = [] →
        validate_config_dir ⟨fun _ => false, fun _ => false, fun _ => []⟩ "configs" = false ∧
        ∀ (regexOk : String → Bool) (regexSearch : String → String → Bool)
          (limit : Nat) (pat : Option String),
          select_config_files ⟨fun _ => false, fun _ => false, fun _ => []⟩
            regexOk regexSearch "configs" limit pat = []) :=
  validate_iff_and_empty_select ⟨fun _ => false, fun _ => false, fun _ => []⟩ "configs" rfl

/- ## Claim C8: cleanup always empties the Supervision Set -/

/-- Claim C8 (confirmed): after `cleanup_processes` the Supervision Set
(`self.processes`) is empty, whether or not the overall timeout elapsed and
regardless of how each individual process reacted to termination. -/
theorem cleanup_processes_clears_supervision_set (st : PMState) (timedOut : Bool) :
    ((cleanup_processes st timedOut).1).processes = [] := by
  unfold cleanup_processes
  split
  case isTrue h => exact List.isEmpty_iff.mp h
  case isFalse h => rfl

/- ## Claim C9: terminating an already-exited handle is a no-op -/

/-- Claim C9 (confirmed): `_cleanup_single_process` on a handle whose process
has already exited (non-null exit code) sends no termination action and leaves
the process info unchanged. -/
theorem cleanup_single_already_exited_noop (pi : ProcessInfo) (c : Int)
    (h : pi.process.returncode = some c) :
    cleanup_single_process pi = (pi, []) := by
  unfold cleanup_single_process
  rw [h]

/-- Witness for C9: a concrete handle that exited with code 0 is untouched. -/
theorem cleanup_single_already_exited_noop_witness :
    cleanup_single_process ⟨⟨5, some 0, true, 0⟩, "c.json", 9001⟩ =
      (⟨⟨5, some 0, true, 0⟩, "c.json", 9001⟩, []) :=
  cleanup_single_already_exited_noop ⟨⟨5, some 0, true, 0⟩, "c.json", 9001⟩ 0 rfl

/- ## Claim C1: aggregation of attempt outcomes -/

/-- Claim C1 (corrected) counterexample: an attempt whose gathered outcome is an
exception is NOT recorded in the returned list — with a single attempt whose
outcome is the exception `boom`, `connect_batch`'s result-processing loop
returns the empty list, so no failed AttemptResult carrying the error text
exists and the attempt's outcome is dropped (the claim demands one result per
attempt). -/
theorem aggregate_results_drops_exception_outcome :
    aggregate_results [Except.error ⟨"boom"⟩] = []
    ∧ ¬ (aggregate_results [Except.error ⟨"boom"⟩]).length = 1 := by
  exact ⟨rfl, by decide⟩

/-- Claim C1 (amended): a result dict appears in the aggregated list exactly
when it is one of the gathered non-exception outcomes; outcomes that are
exceptions are only logged and skipped, contributing nothing to the list. -/
theorem aggregate_results_keeps_exactly_ok_outcomes
    (outcomes : List (Except PyExn AttemptResult)) (r : AttemptResult) :
    r ∈ aggregate_results outcomes ↔ Except.ok r ∈ outcomes := by
  induction outcomes with
  | nil => simp [aggregate_results]
  | cons o os ih =>
      cases o with
      | error e =>
          simpa [aggregate_results, List.filterMap_cons] using ih
      | ok a =>
          simp only [aggregate_results, List.filterMap_cons] at ih ⊢
          simp [List.mem_cons, ih]

/- ## Claim C5: semaphore size with max_parallel = 0 -/

/-- Claim C5 (corrected) counterexample: with `max_parallel = 0` and two
selected config files of which one fails resource preparation (its config has
no `http` section), the semaphore is created with size 2 — the number of
SELECTED files — while only 1 entry is prepared, so the gate size differs from
the number of prepared entries the claim demands. -/
theorem semaphore_size_ne_prepared_count :
    connect_batch_semaphore_size ["a.json", "b.json"] 0 = 2
    ∧ (prepare_resources
        (fun f => if f = "a.json" then .ok ⟨some ⟨some "127.0.0.1:9001"⟩⟩ else .ok ⟨none⟩)
        ["a.json", "b.json"]).length = 1
    ∧ connect_batch_semaphore_size ["a.json", "b.json"] 0 ≠
        (prepare_resources
          (fun f => if f = "a.json" then .ok ⟨some ⟨some "127.0.0.1:9001"⟩⟩ else .ok ⟨none⟩)
          ["a.json", "b.json"]).length := by
  refine ⟨rfl, rfl, ?_⟩
  decide

/-- Claim C5 (amended): with `max_parallel = 0` the semaphore is created with
size equal to the number of SELECTED config files (computed before resource
preparation), which is always at least the number of prepared entries — so
concurrency is still effectively unbounded for the prepared entries. -/
theorem semaphore_size_eq_selected_count (load : String → Except PyExn Config)
    (config_files : List String) :
    connect_batch_semaphore_size config_files 0 = config_files.length
    ∧ (prepare_resources load config_files).length ≤
        connect_batch_semaphore_size config_files 0 := by
  refine ⟨rfl, ?_⟩
  have h : connect_batch_semaphore_size config_files 0 = config_files.length := rfl
  rw [h]
  exact List.length_filterMap_le _ _

/- ## Helper lemmas on the connection phase -/

/-- Equation for `launch_process` when spawning raises. -/
theorem launch_process_error (spawn : String → Except PyExn ProcessHandle)
    (st : PMState) (config_file : String) (port : Int) (e : PyExn)
    (h : spawn config_file = .error e) :
    launch_process spawn st config_file port = .error e := by
  unfold launch_process
  rw [h]

/-- Equation for `launch_process` when spawning succeeds: the new process info
is appended to the Supervision Set and returned. -/
theorem launch_process_ok (spawn : String → Except PyExn ProcessHandle)
    (st : PMState) (config_file : String) (port : Int) (p : ProcessHandle)
    (h : spawn config_file = .ok p) :
    launch_process spawn st config_file port =
      .ok (⟨p, config_file, port⟩, ⟨st.processes ++ [⟨p, config_file, port⟩]⟩) := by
  unfold launch_process
  rw [h]

/-- Every return path of `_connect_one` reports the attempt's own config path. -/
theorem connect_one_config_file (spawn : String → Except PyExn ProcessHandle)
    (grace : ProcessHandle → Except PyExn (Option Int))
    (st : PMState) (res : Resource) :
    ((connect_one spawn grace st res).1).config_file = res.config_file := by
  unfold connect_one
  split
  · rfl
  · split
    · rfl
    · split
      · rfl
      · split <;> rfl

/-- Every handle in the Supervision Set after `_connect_one` was either there
before or belongs to this attempt's config path. -/
theorem connect_one_processes_subset (spawn : String → Except PyExn ProcessHandle)
    (grace : ProcessHandle → Except PyExn (Option Int))
    (st : PMState) (res : Resource) :
    ∀ pi ∈ ((connect_one spawn grace st res).2).processes,
      pi ∈ st.processes ∨ pi.config_file = res.config_file := by
  unfold connect_one
  split
  · exact fun pi h => Or.inl h
  split
  · exact fun pi h => Or.inl h
  next port hport =>
    split
    · exact fun pi h => Or.inl h
    next pi₀ st₁ hlaunch =>
      have hst₁ : st₁.processes =
          st.processes ++ [⟨pi₀.process, res.config_file, port⟩] := by
        cases hs : spawn res.config_file with
        | error e =>
            rw [launch_process_error spawn st res.config_file port e hs] at hlaunch
            exact absurd hlaunch (by simp)
        | ok p =>
            rw [launch_process_ok spawn st res.config_file port p hs] at hlaunch
            cases hlaunch
            rfl
      have hmem : ∀ pi ∈ st₁.processes,
          pi ∈ st.processes ∨ pi.config_file = res.config_file := by
        intro pi h
        rw [hst₁] at h
        rcases List.mem_append.mp h with h | h
        · exact Or.inl h
        · right
          rw [List.mem_singleton.mp h]
      split
      · exact hmem
      · exact hmem
      · exact hmem

/-- Every result of the connection phase carries the config path of one of the
prepared resources. -/
theorem run_attempts_results_config_file (spawn : String → Except PyExn ProcessHandle)
    (grace : ProcessHandle → Except PyExn (Option Int)) :
    ∀ (rs : List Resource) (st : PMState),
      ∀ a ∈ (run_attempts spawn grace rs st).1,
        ∃ res ∈ rs, a.config_file = res.config_file
  | [], st => by simp [run_attempts]
  | r :: rs, st => by
      intro a ha
      simp only [run_attempts] at ha
      rcases List.mem_cons.mp ha with h | h
      · refine ⟨r, List.mem_cons_self r rs, ?_⟩
        rw [h]
        exact connect_one_config_file spawn grace st r
      · obtain ⟨res, hres, heq⟩ :=
          run_attempts_results_config_file spawn grace rs
            ((connect_one spawn grace st r).2) a h
        exact ⟨res, List.mem_cons_of_mem r hres, heq⟩

/-- Every handle supervised after the connection phase was either supervised
before or belongs to one of the prepared resources. -/
theorem run_attempts_processes_subset (spawn : String → Except PyExn ProcessHandle)
    (grace : ProcessHandle → Except PyExn (Option Int)) :
    ∀ (rs : List Resource) (st : PMState),
      ∀ pi ∈ ((run_attempts spawn grace rs st).2).processes,
        pi ∈ st.processes ∨ ∃ res ∈ rs, pi.config_file = res.config_file
  | [], st => by simp [run_attempts]
  | r :: rs, st => by
      intro pi hpi
      simp only [run_attempts] at hpi
      rcases run_attempts_processes_subset spawn grace rs
          ((connect_one spawn grace st r).2) pi hpi with h | ⟨res, hres, heq⟩
      · rcases connect_one_processes_subset spawn grace st r pi h with h2 | h2
        · exact Or.inl h2
        · exact Or.inr ⟨r, List.mem_cons_self r rs, h2⟩
      · exact Or.inr ⟨res, List.mem_cons_of_mem r hres, heq⟩

/-- Equation for `prepare_one_resource` when loading raises. -/
theorem prepare_one_resource_error (load : String → Except PyExn Config)
    (config_file : String) (e : PyExn) (h : load config_file = .error e) :
    prepare_one_resource load config_file = none := by
  unfold prepare_one_resource
  rw [h]

/-- Equation for `prepare_one_resource` when loading succeeds. -/
theorem prepare_one_resource_ok (load : String → Except PyExn Config)
    (config_file : String) (cfg : Config) (h : load config_file = .ok cfg) :
    prepare_one_resource load config_file =
      if missingHttpListen cfg then none else some ⟨config_file, cfg⟩ := by
  unfold prepare_one_resource
  rw [h]

/-- A prepared resource records the file it was prepared from, and preparation
of that file indeed succeeds with this very resource. -/
theorem prepare_resources_spec (load : String → Except PyExn Config)
    (config_files : List String) :
    ∀ res ∈ prepare_resources load config_files,
      res.config_file ∈ config_files ∧
        prepare_one_resource load res.config_file = some res := by
  intro res hres
  unfold prepare_resources at hres
  rw [List.mem_filterMap] at hres
  obtain ⟨g, hg, hpg⟩ := hres
  have hcf : res.config_file = g := by
    cases hl : load g with
    | error e =>
        rw [prepare_one_resource_error load g e hl] at hpg
        exact absurd hpg (by simp)
    | ok cfg =>
        rw [prepare_one_resource_ok load g cfg hl] at hpg
        by_cases hm : missingHttpListen cfg = true
        · rw [if_pos hm] at hpg
          exact absurd hpg (by simp)
        · rw [if_neg hm] at hpg
          cases hpg
          rfl
  rw [hcf]
  exact ⟨hg, hpg⟩

/- ## Concrete fixtures used by witnesses and counterexamples -/

/-- A live process handle (no exit code yet). -/
def procLive : ProcessHandle := ⟨1, none, true, 0⟩

/-- A resource whose config carries the listen address `127.0.0.1:8080`. -/
def resOk : Resource := ⟨"c.json", ⟨some ⟨some "127.0.0.1:8080"⟩⟩⟩

/-- A spawning oracle that always succeeds with `procLive`. -/
def spawnOk : String → Except PyExn ProcessHandle := fun _ => .ok procLive

/-- A spawning oracle that always raises. -/
def spawnErr : String → Except PyExn ProcessHandle := fun _ => .error ⟨"spawn failed"⟩

/-- A grace-period oracle that observes exit code 1 (immediate crash). -/
def graceExit1 : ProcessHandle → Except PyExn (Option Int) := fun _ => .ok (some 1)

/-- A loading oracle whose configs never carry an `http` section. -/
def loadNoListen : String → Except PyExn Config := fun _ => .ok ⟨none⟩

/- ## Claim C2: exit-after-grace failures and the Supervision Set -/

/-- Claim C2 (corrected) counterexample: a single attempt whose process is
found already exited (code 1) after the grace period is recorded as a failed
AttemptResult — but its handle IS still present in the Supervision Set
afterwards, contradicting the claim that failed attempts leave no handle. -/
theorem connect_one_exit_failure_counterexample :
    ((connect_one spawnOk graceExit1 ⟨[]⟩ resOk).1).success = false
    ∧ ((connect_one spawnOk graceExit1 ⟨[]⟩ resOk).2).processes =
        [⟨procLive, "c.json", 8080⟩] := by
  exact ⟨rfl, rfl⟩

/-- Claim C2 (amended): when the launched process is found already exited after
the grace period, the attempt is recorded as a failed AttemptResult with the
exit code, but the process handle — appended to the Supervision Set by
`launch_process` — REMAINS in the set afterwards; `_connect_one` never removes
it (only the later monitoring loop does). -/
theorem connect_one_exit_failure_keeps_handle
    (spawn : String → Except PyExn ProcessHandle)
    (grace : ProcessHandle → Except PyExn (Option Int))
    (st : PMState) (res : Resource) (port : Int) (p : ProcessHandle) (rc : Int)
    (h1 : httpListenOf res.config ≠ "")
    (h2 : pyInt ((splitOnChar ':' (httpListenOf res.config)).getLastD "") = some port)
    (h3 : spawn res.config_file = .ok p)
    (h4 : grace p = .ok (some rc)) :
    connect_one spawn grace st res =
      (⟨res.config_file, false, some port, none,
        some ("进程立即退出，退出码: " ++ toString rc)⟩,
       ⟨st.processes ++ [⟨p, res.config_file, port⟩]⟩) := by
  have hl := launch_process_ok spawn st res.config_file port p h3
  simp only [List.getLastD_eq_getLast?] at h2
  simp [connect_one, h1, h2, hl, h4]

/-- Witness for C2 (amended) at a concrete input: the crash of `c.json`'s
process leaves the failed result and the handle still supervised. -/
theorem connect_one_exit_failure_keeps_handle_witness :
    connect_one spawnOk graceExit1 ⟨[]⟩ resOk =
      (⟨"c.json", false, some 8080, none, some ("进程立即退出，退出码: " ++ toString (1 : Int))⟩,
       ⟨[] ++ [⟨procLive, "c.json", 8080⟩]⟩) :=
  connect_one_exit_failure_keeps_handle spawnOk graceExit1 ⟨[]⟩ resOk 8080 procLive 1
    (by decide) (by decide) rfl rfl

/- ## Claim C3: entries without a local HTTP listen address -/

/-- Claim C3 (corrected) counterexample: a config entry whose configuration has
no `http` section is dropped during resource preparation, so `connect_batch`
returns NO AttemptResult at all for it — not the exactly-one failed
AttemptResult with an AddressParseError that the claim demands. -/
theorem connect_batch_missing_listen_counterexample :
    (connect_batch loadNoListen spawnOk graceExit1 ⟨[]⟩ ["f.json"]).1 = []
    ∧ ¬ ((connect_batch loadNoListen spawnOk graceExit1 ⟨[]⟩ ["f.json"]).1.filter
          (fun r => r.config_file == "f.json")).length = 1 := by
  exact ⟨rfl, by decide⟩

/-- Claim C3 (amended): a config entry whose configuration lacks the local HTTP
listen key is dropped during the resource-preparation phase: `connect_batch`
never launches a process for it (no supervised handle carries its path, given
none did initially) and the returned list contains no AttemptResult for it at
all. -/
theorem connect_batch_missing_listen_drops_entry
    (load : String → Except PyExn Config)
    (spawn : String → Except PyExn ProcessHandle)
    (grace : ProcessHandle → Except PyExn (Option Int))
    (st : PMState) (config_files : List String) (f : String) (cfg : Config)
    (hload : load f = .ok cfg)
    (hmiss : missingHttpListen cfg = true)
    (hst : ∀ pi ∈ st.processes, pi.config_file ≠ f) :
    (∀ r ∈ (connect_batch load spawn grace st config_files).1, r.config_file ≠ f)
    ∧ (∀ pi ∈ ((connect_batch load spawn grace st config_files).2).processes,
        pi.config_file ≠ f) := by
  have hprep : ∀ res ∈ prepare_resources load config_files, res.config_file ≠ f := by
    intro res hres hEq
    obtain ⟨hin, hsome⟩ := prepare_resources_spec load config_files res hres
    rw [hEq, prepare_one_resource_ok load f cfg hload, if_pos hmiss] at hsome
    exact absurd hsome (by simp)
  unfold connect_batch
  split
  case isTrue h =>
    refine ⟨fun r hr => absurd hr (by simp), fun pi hpi => hst pi hpi⟩
  case isFalse h =>
    constructor
    · intro r hr
      obtain ⟨res, hres, heq⟩ :=
        run_attempts_results_config_file spawn grace
          (prepare_resources load config_files) st r hr
      rw [heq]
      exact hprep res hres
    · intro pi hpi
      rcases run_attempts_processes_subset spawn grace
          (prepare_resources load config_files) st pi hpi with h2 | ⟨res, hres, heq⟩
      · exact hst pi h2
      · rw [heq]
        exact hprep res hres

/-- Witness for C3 (amended) at a concrete input: with one file whose config
lacks the HTTP section, no result and no supervised handle carries its path. -/
theorem connect_batch_missing_listen_drops_entry_witness :
    (∀ r ∈ (connect_batch loadNoListen spawnOk graceExit1 ⟨[]⟩ ["f.json"]).1,
      r.config_file ≠ "f.json")
    ∧ (∀ pi ∈ ((connect_batch loadNoListen spawnOk graceExit1 ⟨[]⟩ ["f.json"]).2).processes,
        pi.config_file ≠ "f.json") :=
  connect_batch_missing_listen_drops_entry loadNoListen spawnOk graceExit1 ⟨[]⟩
    ["f.json"] "f.json" ⟨none⟩ rfl rfl (by simp)

/- ## Claim C10: `_connect_one` converts exceptions into failed results -/

/-- Claim C10 (confirmed): once the listen address parses, an exception raised
during launch or during the grace-period exit poll never propagates out of
`_connect_one`: it is caught and converted into a returned AttemptResult with
`success = false`, the exception text as `error`, and the resource's config
path. -/
theorem connect_one_converts_exceptions
    (spawn : String → Except PyExn ProcessHandle)
    (grace : ProcessHandle → Except PyExn (Option Int))
    (st : PMState) (res : Resource) (port : Int) (e : PyExn)
    (h1 : httpListenOf res.config ≠ "")
    (h2 : pyInt ((splitOnChar ':' (httpListenOf res.config)).getLastD "") = some port)
    (h3 : spawn res.config_file = .error e ∨
          ∃ p, spawn res.config_file = .ok p ∧ grace p = .error e) :
    (connect_one spawn grace st res).1 =
      ⟨res.config_file, false, some port, none, some e.msg⟩ := by
  simp only [List.getLastD_eq_getLast?] at h2
  rcases h3 with h3 | ⟨p, h3, h4⟩
  · have hl := launch_process_error spawn st res.config_file port e h3
    simp [connect_one, h1, h2, hl]
  · have hl := launch_process_ok spawn st res.config_file port p h3
    simp [connect_one, h1, h2, hl, h4]

/-- Witness for C10 at a concrete input: a spawn failure on `c.json` is
returned as a failed AttemptResult carrying the exception text. -/
theorem connect_one_converts_exceptions_witness :
    (connect_one spawnErr graceExit1 ⟨[]⟩ resOk).1 =
      ⟨"c.json", false, some 8080, none, some "spawn failed"⟩ :=
  connect_one_converts_exceptions spawnErr graceExit1 ⟨[]⟩ resOk 8080 ⟨"spawn failed"⟩
    (by decide) (by decide) (Or.inl rfl)

end ProxyConverter
